import Mathlib

/-!
Verification of the inventory/event/transaction data layer of the
TDD-Inventory-System repository.

The Lean definitions below are a shallow embedding of the Python data layer
in `src/backend/events.py`, `src/backend/collaterals.py` and
`src/backend/summary.py`.  The SQLite tables become lists of rows held in a
`Store`; `AUTOINCREMENT` primary keys become explicit counters that are never
reused; `ORDER BY id DESC` becomes an insertion sort on the key, descending;
`datetime.now()` becomes an explicit `now : String` parameter threaded into
every mutating operation (the two clock reads inside one operation are
modelled as the same instant).  Fallible code (`spend_collateral` raising
`ValueError("Item not found")`) returns `Except`.
-/

namespace Inventory

/-- A row of the `events` table (see `create_tables` in
`src/backend/database.py`). -/
structure EventRow where
  id : Nat
  event_name : String
  location : Option String
  start_date : Option String
  end_date : Option String
  last_modified : String
deriving Repr, DecidableEq

/-- A row of the `collaterals` table. -/
structure CollateralRow where
  id : Nat
  item_name : String
  quantity : Int
  event_id : Option Nat
  last_modified : String
deriving Repr, DecidableEq

/-- A row of the `transactions` table. -/
structure TransactionRow where
  id : Nat
  item_id : Nat
  event_id : Option Nat
  delta : Int
  timestamp : String
deriving Repr, DecidableEq

/-- The persistent store: the three inventory tables plus the
`AUTOINCREMENT` counters of their primary keys. -/
structure Store where
  events : List EventRow
  collaterals : List CollateralRow
  transactions : List TransactionRow
  nextEventId : Nat
  nextCollateralId : Nat
  nextTransactionId : Nat
deriving Repr, DecidableEq

/-- A freshly initialised database: empty tables, ids starting at 1. -/
def emptyStore : Store := ⟨[], [], [], 1, 1, 1⟩

/-- Insert `x` into a list already sorted by `f` in descending order. -/
def insertDescBy (f : α → Nat) (x : α) : List α → List α
  | [] => [x]
  | y :: ys => if f y ≤ f x then x :: y :: ys else y :: insertDescBy f x ys

/-- Sort a list by `f` descending; embeds SQL `ORDER BY f DESC`. -/
def sortDescBy (f : α → Nat) : List α → List α
  | [] => []
  | y :: ys => insertDescBy f y (sortDescBy f ys)

/-- Python `q or 0` applied to an integer column value: `0` stays `0`,
everything else is itself.  Used by `spend_collateral`
(`cur_row[0] or 0`) and `show_summary` (`... or 0`). -/
def pyOr0 (q : Int) : Int := if q = 0 then 0 else q

/-- ASCII lower-casing of one character, as SQLite `LIKE` folds case for
ASCII letters. -/
def lowerAscii (c : Char) : Char :=
  if 'A' ≤ c && c ≤ 'Z' then Char.ofNat (c.toNat + 32) else c

/-- Does `hay` start with `needle`? -/
def startsWithChars : List Char → List Char → Bool
  | [], _ => true
  | _ :: _, [] => false
  | a :: as, b :: bs => (a == b) && startsWithChars as bs

/-- Does `hay` contain `needle` as a contiguous run? -/
def containsChars (needle : List Char) : List Char → Bool
  | [] => startsWithChars needle []
  | b :: bs => startsWithChars needle (b :: bs) || containsChars needle bs

/-- SQLite `hay LIKE '%pat%'` for a wildcard-free `pat`: case-insensitive
(ASCII) containment of `pat` in `hay`.  Wildcard characters inside the
user-supplied term are not modelled. -/
def likeContains (hay pat : String) : Bool :=
  containsChars (pat.toList.map lowerAscii) (hay.toList.map lowerAscii)

/-! ### Event directory: `src/backend/events.py` -/

/-- `create_event`: unconditionally INSERTs a new row and returns
`lastrowid`.  Note: the source performs no validation of `name`. -/
def create_event (name : String) (start_date end_date location : Option String)
    (now : String) (s : Store) : Nat × Store :=
  (s.nextEventId,
   { s with
      events := s.events ++ [⟨s.nextEventId, name, location, start_date, end_date, now⟩],
      nextEventId := s.nextEventId + 1 })

/-- `update_event`: UPDATE of every field on the rows matching `id`.
The source never inspects the affected-row count and raises no error. -/
def update_event (event_id : Nat) (name : String)
    (start_date end_date location : Option String) (now : String) (s : Store) : Store :=
  { s with
      events := s.events.map fun e =>
        if e.id == event_id then ⟨e.id, name, location, start_date, end_date, now⟩ else e }

/-- `delete_event`: a single `DELETE FROM events WHERE id=?`; the source
touches no other table. -/
def delete_event (event_id : Nat) (s : Store) : Store :=
  { s with events := s.events.filter fun e => !(e.id == event_id) }

/-- `list_events`: `SELECT id, event_name FROM events ORDER BY id DESC`. -/
def list_events (s : Store) : List (Nat × String) :=
  (sortDescBy (fun e => e.id) s.events).map fun e => (e.id, e.event_name)

/-- `search_events`: the source takes a single term and runs
`WHERE event_name LIKE '%term%' ORDER BY id DESC`; there are no date
filters in this function. -/
def search_events (term : String) (s : Store) : List (Nat × String) :=
  (sortDescBy (fun e => e.id)
      (s.events.filter fun e => likeContains e.event_name term)).map
    fun e => (e.id, e.event_name)

/-! ### Item ledger: `src/backend/collaterals.py` -/

/-- `create_collateral`: unconditional INSERT returning `lastrowid`;
no validation of name or quantity in the source. -/
def create_collateral (item_name : String) (quantity : Int) (event_id : Option Nat)
    (now : String) (s : Store) : Nat × Store :=
  (s.nextCollateralId,
   { s with
      collaterals := s.collaterals ++ [⟨s.nextCollateralId, item_name, quantity, event_id, now⟩],
      nextCollateralId := s.nextCollateralId + 1 })

/-- `update_collateral`: UPDATE of every field on the rows matching `id`;
no affected-row check, no clamp, and no transaction row written. -/
def update_collateral (item_id : Nat) (item_name : String) (quantity : Int)
    (event_id : Option Nat) (now : String) (s : Store) : Store :=
  { s with
      collaterals := s.collaterals.map fun c =>
        if c.id == item_id then ⟨c.id, item_name, quantity, event_id, now⟩ else c }

/-- `delete_collateral`: a single `DELETE FROM collaterals WHERE id=?`;
transactions of the item are left in place. -/
def delete_collateral (item_id : Nat) (s : Store) : Store :=
  { s with collaterals := s.collaterals.filter fun c => !(c.id == item_id) }

/-- `spend_collateral`: SELECT the quantity; if no row, raise
`ValueError("Item not found")` before any write; otherwise clamp
`max((q or 0) + delta, 0)`, UPDATE quantity and `last_modified`, and INSERT
a transaction row carrying the requested `delta`. -/
def spend_collateral (item_id : Nat) (delta : Int) (event_id : Option Nat)
    (now : String) (s : Store) : Except String (Int × Store) :=
  match s.collaterals.find? (fun c => c.id == item_id) with
  | none => .error "Item not found"
  | some c =>
      let new_qty : Int := max (pyOr0 c.quantity + delta) 0
      .ok (new_qty,
        { s with
            collaterals := s.collaterals.map fun r =>
              if r.id == item_id then { r with quantity := new_qty, last_modified := now } else r,
            transactions :=
              s.transactions ++ [⟨s.nextTransactionId, item_id, event_id, delta, now⟩],
            nextTransactionId := s.nextTransactionId + 1 })

/-- The per-item inner query of `get_item_summary`:
`SELECT event_id, timestamp FROM transactions WHERE item_id=? AND delta<0
ORDER BY id DESC LIMIT 1`. -/
def lastSpend (txs : List TransactionRow) (item_id : Nat) : Option TransactionRow :=
  (sortDescBy (fun t => t.id)
      (txs.filter fun t => t.item_id == item_id && decide (t.delta < 0))).head?

/-- One output row of `get_item_summary` for collateral `c`. -/
def summaryRow (txs : List TransactionRow) (c : CollateralRow) :
    Nat × String × Int × Option Nat × String :=
  match lastSpend txs c.id with
  | some t => (c.id, c.item_name, c.quantity, t.event_id, t.timestamp)
  | none => (c.id, c.item_name, c.quantity, none, c.last_modified)

/-- `get_item_summary`: items ordered by id DESC, each with the event id and
timestamp of its most recent negative-delta transaction, or its own
`last_modified` when none exists. -/
def get_item_summary (s : Store) : List (Nat × String × Int × Option Nat × String) :=
  (sortDescBy (fun c => c.id) s.collaterals).map (summaryRow s.transactions)

/-- The LEFT JOIN of `get_transactions`: the name of the referenced event,
or `none` for a NULL `event_id` or a deleted event. -/
def eventNameFor (events : List EventRow) (event_id : Option Nat) : Option String :=
  match event_id with
  | none => none
  | some eid => (events.find? (fun e => e.id == eid)).map fun e => e.event_name

/-- `get_transactions`: rows `(id, delta, timestamp, event name)` of one
item, ordered by transaction id DESC. -/
def get_transactions (item_id : Nat) (s : Store) :
    List (Nat × Int × String × Option String) :=
  (sortDescBy (fun t => t.id) (s.transactions.filter fun t => t.item_id == item_id)).map
    fun t => (t.id, t.delta, t.timestamp, eventNameFor s.events t.event_id)

/-! ### Summary: `src/backend/summary.py` -/

/-- The dict returned by `show_summary`: exactly three totals. -/
structure Summary where
  total_events : Nat
  total_items : Nat
  total_quantity : Int
deriving Repr, DecidableEq

/-- SQL `SUM` over a column: NULL on an empty table. -/
def sqlSum (l : List Int) : Option Int := if l.isEmpty then none else some l.sum

/-- `show_summary`: COUNT of events, COUNT of collaterals, and
`SUM(quantity) ... or 0`. -/
def show_summary (s : Store) : Summary :=
  ⟨s.events.length, s.collaterals.length,
   match sqlSum (s.collaterals.map fun c => c.quantity) with
   | none => 0
   | some q => pyOr0 q⟩

/-! ### The call surface of the layer, as one step function -/

/-- The mutating operations the presentation layer can invoke on this
data layer. -/
inductive Op where
  | createEvent (name : String) (start_date end_date location : Option String)
  | updateEvent (event_id : Nat) (name : String) (start_date end_date location : Option String)
  | deleteEvent (event_id : Nat)
  | createItem (item_name : String) (quantity : Int) (event_id : Option Nat)
  | updateItem (item_id : Nat) (item_name : String) (quantity : Int) (event_id : Option Nat)
  | deleteItem (item_id : Nat)
  | adjustQuantity (item_id : Nat) (delta : Int) (event_id : Option Nat)
deriving Repr, DecidableEq

/-- State transition of one mutating call; a failing `spend_collateral`
leaves the store unchanged (the source raises before any write). -/
def applyOp (op : Op) (now : String) (s : Store) : Store :=
  match op with
  | .createEvent n sd ed loc => (create_event n sd ed loc now s).2
  | .updateEvent i n sd ed loc => update_event i n sd ed loc now s
  | .deleteEvent i => delete_event i s
  | .createItem n q e => (create_collateral n q e now s).2
  | .updateItem i n q e => update_collateral i n q e now s
  | .deleteItem i => delete_collateral i s
  | .adjustQuantity i d e =>
      match spend_collateral i d e now s with
      | .ok (_, t) => t
      | .error _ => s

/-- Well-formedness of a store: every id is below its table's
`AUTOINCREMENT` counter, ids are distinct within a table, and every
transaction's `item_id` was assigned by the collateral counter. -/
def WF (s : Store) : Prop :=
  (∀ e ∈ s.events, e.id < s.nextEventId) ∧
  (∀ c ∈ s.collaterals, c.id < s.nextCollateralId) ∧
  (∀ t ∈ s.transactions, t.id < s.nextTransactionId) ∧
  (∀ t ∈ s.transactions, t.item_id < s.nextCollateralId) ∧
  s.events.Pairwise (fun a b => a.id ≠ b.id) ∧
  s.collaterals.Pairwise (fun a b => a.id ≠ b.id) ∧
  s.transactions.Pairwise (fun a b => a.id ≠ b.id)

instance (s : Store) : Decidable (WF s) := by unfold WF; infer_instance

/-! ### Helper lemmas about the descending insertion sort -/

theorem mem_insertDescBy {f : α → Nat} {x y : α} {l : List α} :
    y ∈ insertDescBy f x l ↔ y = x ∨ y ∈ l := by
  induction l with
  | nil => simp [insertDescBy]
  | cons a t ih =>
      by_cases h : f a ≤ f x
      · simp [insertDescBy, h]
      · simp only [insertDescBy, if_neg h, List.mem_cons, ih]
        tauto

theorem mem_sortDescBy {f : α → Nat} {y : α} {l : List α} :
    y ∈ sortDescBy f l ↔ y ∈ l := by
  induction l with
  | nil => simp [sortDescBy]
  | cons a t ih => simp [sortDescBy, mem_insertDescBy, ih]

theorem perm_insertDescBy (f : α → Nat) (x : α) (l : List α) :
    List.Perm (insertDescBy f x l) (x :: l) := by
  induction l with
  | nil => simp [insertDescBy]
  | cons a t ih =>
      by_cases h : f a ≤ f x
      · simp [insertDescBy, h]
      · simp only [insertDescBy, if_neg h]
        exact (List.Perm.cons a ih).trans (List.Perm.swap x a t)

theorem perm_sortDescBy (f : α → Nat) (l : List α) : List.Perm (sortDescBy f l) l := by
  induction l with
  | nil => rfl
  | cons a t ih => exact (perm_insertDescBy f a _).trans (List.Perm.cons a ih)

/-- A list is sorted by key `f` in descending order. -/
def SortedDescKey (f : α → Nat) (l : List α) : Prop :=
  l.Pairwise fun a b => f b ≤ f a

theorem sortedDescKey_insertDescBy {f : α → Nat} {x : α} {l : List α}
    (h : SortedDescKey f l) : SortedDescKey f (insertDescBy f x l) := by
  induction l with
  | nil => simp [insertDescBy, SortedDescKey]
  | cons a t ih =>
      rcases List.pairwise_cons.1 h with ⟨ha, ht⟩
      by_cases hc : f a ≤ f x
      · simp only [SortedDescKey, insertDescBy, if_pos hc]
        refine List.pairwise_cons.2 ⟨?_, h⟩
        intro y hy
        rcases List.mem_cons.1 hy with rfl | hy
        · exact hc
        · exact le_trans (ha y hy) hc
      · simp only [SortedDescKey, insertDescBy, if_neg hc]
        refine List.pairwise_cons.2 ⟨?_, ih ht⟩
        intro y hy
        rcases mem_insertDescBy.1 hy with rfl | hy
        · exact le_of_not_le hc
        · exact ha y hy

theorem sortedDescKey_sortDescBy (f : α → Nat) (l : List α) :
    SortedDescKey f (sortDescBy f l) := by
  induction l with
  | nil => exact List.Pairwise.nil
  | cons a t ih => exact sortedDescKey_insertDescBy ih

theorem sortDescBy_append_gt {f : α → Nat} {x : α} {l : List α}
    (h : ∀ y ∈ l, f y < f x) : sortDescBy f (l ++ [x]) = x :: sortDescBy f l := by
  induction l with
  | nil => rfl
  | cons a t ih =>
      have ha : f a < f x := h a (List.mem_cons_self a t)
      have ht : ∀ y ∈ t, f y < f x := fun y hy => h y (List.mem_cons_of_mem a hy)
      show insertDescBy f a (sortDescBy f (t ++ [x])) = x :: insertDescBy f a (sortDescBy f t)
      rw [ih ht]
      simp only [insertDescBy, if_neg (not_le.2 ha)]

theorem find?_map_keyed {g : α → α} {p : α → Bool} (hp : ∀ a, p (g a) = p a) :
    ∀ l : List α, (l.map g).find? p = (l.find? p).map g
  | [] => rfl
  | a :: t => by
      by_cases h : p a
      · rw [List.map_cons, List.find?_cons_of_pos _ ((hp a).trans h),
          List.find?_cons_of_pos _ h]
        rfl
      · rw [List.map_cons, List.find?_cons_of_neg, List.find?_cons_of_neg _ h,
          find?_map_keyed hp t]
        rw [hp a]
        exact h

theorem pyOr0_eq (q : Int) : pyOr0 q = q := by
  unfold pyOr0
  split <;> omega

theorem lastSpend_eq_none {txs : List TransactionRow} {cid : Nat}
    (h : ∀ t ∈ txs, t.item_id ≠ cid) : lastSpend txs cid = none := by
  unfold lastSpend
  have hf : txs.filter (fun t => t.item_id == cid && decide (t.delta < 0)) = [] := by
    rw [List.filter_eq_nil_iff]
    intro t ht
    simp [h t ht]
  rw [hf]
  rfl

theorem insertDescBy_map {f : α → Nat} {g : α → α} (hg : ∀ a, f (g a) = f a)
    (x : α) (l : List α) :
    insertDescBy f (g x) (l.map g) = (insertDescBy f x l).map g := by
  induction l with
  | nil => rfl
  | cons a t ih =>
      simp only [List.map_cons, insertDescBy, hg]
      by_cases h : f a ≤ f x
      · simp [h]
      · simp [h, ih]

theorem sortDescBy_map {f : α → Nat} {g : α → α} (hg : ∀ a, f (g a) = f a)
    (l : List α) : sortDescBy f (l.map g) = (sortDescBy f l).map g := by
  induction l with
  | nil => rfl
  | cons a t ih =>
      show insertDescBy f (g a) (sortDescBy f (t.map g)) = _
      rw [ih, insertDescBy_map hg]
      rfl

/-! ### Concrete stores used to instantiate the theorems -/

/-- A small populated store: one event, two items, one spend transaction. -/
def demoStore : Store :=
  { events := [⟨1, "Expo", none, some "2024-01-01", some "2024-01-02", "t1"⟩],
    collaterals := [⟨1, "Banner", 10, some 1, "t2"⟩, ⟨2, "Chair", 5, none, "t3"⟩],
    transactions := [⟨1, 1, some 1, -3, "t4"⟩],
    nextEventId := 2, nextCollateralId := 3, nextTransactionId := 2 }

/-- The second item of `demoStore`. -/
def chairRow : CollateralRow := ⟨2, "Chair", 5, none, "t3"⟩

/-- A store with one event and one item linked to that event. -/
def linkedStore : Store :=
  { events := [⟨1, "Expo", none, none, none, "t1"⟩],
    collaterals := [⟨1, "Banner", 10, some 1, "t2"⟩],
    transactions := [],
    nextEventId := 2, nextCollateralId := 2, nextTransactionId := 1 }

/-! ### Claim theorems -/

/-- Claim C10: deleting an absent id is a silent no-op for both
`delete_event` and `delete_collateral`: the functions are total (no error
path exists in the source) and the store comes back unchanged. -/
theorem delete_absent_is_silent_noop (i : Nat) (s : Store) :
    ((∀ e ∈ s.events, e.id ≠ i) → delete_event i s = s) ∧
    ((∀ c ∈ s.collaterals, c.id ≠ i) → delete_collateral i s = s) := by
  constructor
  · intro h
    have hf : s.events.filter (fun e => !(e.id == i)) = s.events :=
      List.filter_eq_self.2 (by intro e he; simpa using h e he)
    unfold delete_event
    rw [hf]
  · intro h
    have hf : s.collaterals.filter (fun c => !(c.id == i)) = s.collaterals :=
      List.filter_eq_self.2 (by intro c hc; simpa using h c hc)
    unfold delete_collateral
    rw [hf]

/-- Witness for claim C10, at id 99 absent from `demoStore`. -/
theorem delete_absent_is_silent_noop_witness :
    (∀ e ∈ demoStore.events, e.id ≠ 99) ∧ (∀ c ∈ demoStore.collaterals, c.id ≠ 99) ∧
    delete_event 99 demoStore = demoStore ∧ delete_collateral 99 demoStore = demoStore :=
  ⟨by decide, by decide,
   (delete_absent_is_silent_noop 99 demoStore).1 (by decide),
   (delete_absent_is_silent_noop 99 demoStore).2 (by decide)⟩

/-- Claim C4 counterexample: updating the absent id 1 in the empty store
raises no NotFoundError — both update operations return normally and the
store is unchanged (the source never inspects `rowcount`). -/
theorem update_absent_returns_normally :
    update_event 1 "x" none none none "t0" emptyStore = emptyStore ∧
    update_collateral 1 "x" 0 none "t0" emptyStore = emptyStore :=
  ⟨rfl, rfl⟩

/-- Claim C4 amended: on an absent id the update operations are silent
no-ops (no error is raised, the store is unchanged); on a present id every
field of the matching row is overwritten unconditionally. -/
theorem update_silent_noop_or_overwrites (i : Nat) (n : String)
    (sd ed loc : Option String) (iname : String) (q : Int) (eid : Option Nat)
    (now : String) (s : Store) :
    ((∀ e ∈ s.events, e.id ≠ i) → update_event i n sd ed loc now s = s) ∧
    ((∀ c ∈ s.collaterals, c.id ≠ i) → update_collateral i iname q eid now s = s) ∧
    (∀ e ∈ s.events, e.id = i →
      (⟨i, n, loc, sd, ed, now⟩ : EventRow) ∈ (update_event i n sd ed loc now s).events) ∧
    (∀ c ∈ s.collaterals, c.id = i →
      (⟨i, iname, q, eid, now⟩ : CollateralRow) ∈
        (update_collateral i iname q eid now s).collaterals) := by
  refine ⟨?_, ?_, ?_, ?_⟩
  · intro h
    have hm : (s.events.map fun e =>
        if e.id == i then (⟨e.id, n, loc, sd, ed, now⟩ : EventRow) else e) = s.events := by
      rw [List.map_congr_left (g := id), List.map_id]
      intro e he
      have hb : (e.id == i) = false := by simpa using h e he
      simp [hb]
    unfold update_event
    rw [hm]
  · intro h
    have hm : (s.collaterals.map fun c =>
        if c.id == i then (⟨c.id, iname, q, eid, now⟩ : CollateralRow) else c) = s.collaterals := by
      rw [List.map_congr_left (g := id), List.map_id]
      intro c hc
      have hb : (c.id == i) = false := by simpa using h c hc
      simp [hb]
    unfold update_collateral
    rw [hm]
  · intro e he hei
    have hb : (e.id == i) = true := by simpa using hei
    have hmem := List.mem_map_of_mem
      (f := fun e : EventRow =>
        if e.id == i then (⟨e.id, n, loc, sd, ed, now⟩ : EventRow) else e) he
    have hrow : (if e.id == i then (⟨e.id, n, loc, sd, ed, now⟩ : EventRow) else e) =
        ⟨i, n, loc, sd, ed, now⟩ := by
      simp [hb, hei]
    unfold update_event
    exact hrow ▸ hmem
  · intro c hc hci
    have hb : (c.id == i) = true := by simpa using hci
    have hmem := List.mem_map_of_mem
      (f := fun c : CollateralRow =>
        if c.id == i then (⟨c.id, iname, q, eid, now⟩ : CollateralRow) else c) hc
    have hrow : (if c.id == i then (⟨c.id, iname, q, eid, now⟩ : CollateralRow) else c) =
        ⟨i, iname, q, eid, now⟩ := by
      simp [hb, hci]
    unfold update_collateral
    exact hrow ▸ hmem

/-- Witness for claim C4 amended, at id 1 present in `demoStore`. -/
theorem update_silent_noop_or_overwrites_witness :
    ((∀ e ∈ demoStore.events, e.id ≠ 1) →
      update_event 1 "NewName" (some "s") none none "t9" demoStore = demoStore) ∧
    ((∀ c ∈ demoStore.collaterals, c.id ≠ 1) →
      update_collateral 1 "NewItem" 7 none "t9" demoStore = demoStore) ∧
    (∀ e ∈ demoStore.events, e.id = 1 →
      (⟨1, "NewName", none, some "s", none, "t9"⟩ : EventRow) ∈
        (update_event 1 "NewName" (some "s") none none "t9" demoStore).events) ∧
    (∀ c ∈ demoStore.collaterals, c.id = 1 →
      (⟨1, "NewItem", 7, none, "t9"⟩ : CollateralRow) ∈
        (update_collateral 1 "NewItem" 7 none "t9" demoStore).collaterals) :=
  update_silent_noop_or_overwrites 1 "NewName" (some "s") none none "NewItem" 7 none "t9" demoStore

/-- Claim C3 counterexample: creating an event with an empty name and an
item with an empty name both succeed — a row is written and the fresh id is
returned, so no ValidationError protects the store. -/
theorem create_empty_name_writes_row :
    (create_event "" none none none "t0" emptyStore).1 = 1 ∧
    ((create_event "" none none none "t0" emptyStore).2).events =
      [⟨1, "", none, none, none, "t0"⟩] ∧
    (create_collateral "" (-5) none "t0" emptyStore).1 = 1 ∧
    ((create_collateral "" (-5) none "t0" emptyStore).2).collaterals =
      [⟨1, "", -5, none, "t0"⟩] :=
  ⟨rfl, rfl, rfl, rfl⟩

/-- Claim C3 amended: the create operations perform no validation at all:
for every name — the empty string included — and every integer quantity
they append a row and return the fresh id; the new row is immediately
visible at the head of `list_events`, resp. of `get_item_summary` with no
spend event and the creation timestamp. -/
theorem create_performs_no_validation (name : String) (sd ed loc : Option String)
    (iname : String) (q : Int) (eid : Option Nat) (now : String) (s : Store)
    (hwf : WF s) :
    (create_event name sd ed loc now s).1 = s.nextEventId ∧
    list_events (create_event name sd ed loc now s).2 =
      (s.nextEventId, name) :: list_events s ∧
    (create_collateral iname q eid now s).1 = s.nextCollateralId ∧
    get_item_summary (create_collateral iname q eid now s).2 =
      (s.nextCollateralId, iname, q, none, now) :: get_item_summary s := by
  obtain ⟨hev, hcol, htx, htxitem, _, _, _⟩ := hwf
  refine ⟨rfl, ?_, rfl, ?_⟩
  · unfold list_events create_event
    rw [sortDescBy_append_gt (by intro y hy; exact hev y hy)]
    rfl
  · unfold get_item_summary create_collateral
    rw [sortDescBy_append_gt (by intro y hy; exact hcol y hy), List.map_cons]
    have hnone : lastSpend s.transactions s.nextCollateralId = none :=
      lastSpend_eq_none (by intro t ht; exact Nat.ne_of_lt (htxitem t ht))
    congr 1
    simp [summaryRow, hnone]

/-- Witness for claim C3 amended, creating rows with empty names. -/
theorem create_performs_no_validation_witness :
    WF demoStore ∧
    (create_event "" none none none "t9" demoStore).1 = demoStore.nextEventId ∧
    list_events (create_event "" none none none "t9" demoStore).2 =
      (demoStore.nextEventId, "") :: list_events demoStore ∧
    (create_collateral "" (-5) none "t9" demoStore).1 = demoStore.nextCollateralId ∧
    get_item_summary (create_collateral "" (-5) none "t9" demoStore).2 =
      (demoStore.nextCollateralId, "", -5, none, "t9") :: get_item_summary demoStore :=
  ⟨by decide,
   create_performs_no_validation "" none none none "" (-5) none "t9" demoStore (by decide)⟩

/-- Claim C2 counterexample: after `delete_event 1` on a store whose only
item is linked to event 1, the event list omits the event but the linked
item remains in the store and is still reported by `get_item_summary`. -/
theorem delete_event_leaves_linked_items :
    list_events (delete_event 1 linkedStore) = [] ∧
    (delete_event 1 linkedStore).collaterals = [⟨1, "Banner", 10, some 1, "t2"⟩] ∧
    get_item_summary (delete_event 1 linkedStore) = [(1, "Banner", 10, none, "t2")] := by
  refine ⟨by decide, by decide, by decide⟩

/-- Claim C2 amended: `delete_event` deletes only the event row: the items
and transactions tables are untouched, `get_item_summary` is unchanged
(items linked to the deleted event are still listed), and `list_events`
omits the deleted id. -/
theorem delete_event_removes_only_event (i : Nat) (s : Store) :
    (delete_event i s).collaterals = s.collaterals ∧
    (delete_event i s).transactions = s.transactions ∧
    get_item_summary (delete_event i s) = get_item_summary s ∧
    ∀ p ∈ list_events (delete_event i s), p.1 ≠ i := by
  refine ⟨rfl, rfl, rfl, ?_⟩
  intro p hp
  unfold list_events delete_event at hp
  rcases List.mem_map.1 hp with ⟨e, he, rfl⟩
  have he2 : e ∈ s.events.filter (fun e => !(e.id == i)) := mem_sortDescBy.1 he
  have hne := (List.mem_filter.1 he2).2
  simpa using hne

/-- Witness for claim C2 amended, deleting event 1 of `demoStore`. -/
theorem delete_event_removes_only_event_witness :
    (delete_event 1 demoStore).collaterals = demoStore.collaterals ∧
    (delete_event 1 demoStore).transactions = demoStore.transactions ∧
    get_item_summary (delete_event 1 demoStore) = get_item_summary demoStore ∧
    ∀ p ∈ list_events (delete_event 1 demoStore), p.1 ≠ 1 :=
  delete_event_removes_only_event 1 demoStore

/-- Stores for the C7 counterexample: equal totals, but a different
most-stocked item and different last_modified values. -/
def sumStoreA : Store :=
  { events := [⟨1, "E", none, none, none, "t1"⟩],
    collaterals := [⟨1, "a", 5, none, "ta"⟩, ⟨2, "b", 3, none, "tb"⟩],
    transactions := [],
    nextEventId := 2, nextCollateralId := 3, nextTransactionId := 1 }

/-- Same totals as `sumStoreA` with the quantities swapped between the two
items and fresh timestamps. -/
def sumStoreB : Store :=
  { events := [⟨1, "E", none, none, none, "t1"⟩],
    collaterals := [⟨1, "a", 3, none, "tc"⟩, ⟨2, "b", 5, none, "td"⟩],
    transactions := [],
    nextEventId := 2, nextCollateralId := 3, nextTransactionId := 1 }

/-- Claim C7 counterexample: `show_summary` returns only the three totals.
The two stores differ in which item holds the maximal quantity and in all
last_modified values, yet `show_summary` cannot tell them apart, so its
result reports no mostStocked, no leastStocked and no lastModification. -/
theorem show_summary_totals_only_counterexample :
    show_summary sumStoreA = ⟨1, 2, 8⟩ ∧
    show_summary sumStoreB = ⟨1, 2, 8⟩ ∧
    sumStoreA.collaterals ≠ sumStoreB.collaterals := by
  refine ⟨by decide, by decide, by decide⟩

/-- Claim C7 amended: `show_summary` returns exactly three totals — the
event count, the item count, and the sum of all item quantities (0 when
there are no items); on the empty store all three are 0. -/
theorem show_summary_totals (s : Store) :
    show_summary s =
      ⟨s.events.length, s.collaterals.length, (s.collaterals.map fun c => c.quantity).sum⟩ ∧
    show_summary emptyStore = ⟨0, 0, 0⟩ := by
  constructor
  · unfold show_summary sqlSum
    cases hl : s.collaterals with
    | nil => simp
    | cons c t => simp [pyOr0_eq]
  · rfl

/-- Store for the C8 counterexample, with dates far in the past. -/
def dateStoreA : Store :=
  { events := [⟨1, "Expo", none, some "2000-01-01", some "2000-01-02", "t1"⟩],
    collaterals := [], transactions := [],
    nextEventId := 2, nextCollateralId := 1, nextTransactionId := 1 }

/-- Same as `dateStoreA` with dates far in the future. -/
def dateStoreB : Store :=
  { events := [⟨1, "Expo", none, some "2099-01-01", some "2099-01-02", "t1"⟩],
    collaterals := [], transactions := [],
    nextEventId := 2, nextCollateralId := 1, nextTransactionId := 1 }

/-- Claim C8 counterexample: `search_events` takes a single name term —
there is no date parameter to pass — and it returns the same result on two
stores that differ only in the events' dates, so no startDateOnOrAfter or
endDateOnOrBefore constraint exists in this layer. -/
theorem search_events_ignores_dates :
    search_events "Expo" dateStoreA = [(1, "Expo")] ∧
    search_events "Expo" dateStoreB = [(1, "Expo")] ∧
    dateStoreA.events ≠ dateStoreB.events := by
  refine ⟨by decide, by decide, by decide⟩

/-- Claim C8 amended: `search_events` supports exactly one filter, a
case-insensitive substring match on the event name; membership in the
result is determined by id and name alone, and the result is invariant
under arbitrary rewriting of the date fields. -/
theorem search_events_name_filter_only (term : String) (s : Store) (i : Nat)
    (n : String) (redate : EventRow → Option String × Option String) :
    ((i, n) ∈ search_events term s ↔
      ∃ e ∈ s.events, e.id = i ∧ e.event_name = n ∧ likeContains e.event_name term = true) ∧
    search_events term
        { s with events := s.events.map fun e =>
            { e with start_date := (redate e).1, end_date := (redate e).2 } } =
      search_events term s := by
  constructor
  · unfold search_events
    constructor
    · intro hmem
      rcases List.mem_map.1 hmem with ⟨e, he, heq⟩
      rcases List.mem_filter.1 (mem_sortDescBy.1 he) with ⟨he3, hlike⟩
      exact ⟨e, he3, congrArg Prod.fst heq, congrArg Prod.snd heq, hlike⟩
    · rintro ⟨e, he, rfl, rfl, hlike⟩
      exact List.mem_map.2 ⟨e, mem_sortDescBy.2 (List.mem_filter.2 ⟨he, hlike⟩), rfl⟩
  · unfold search_events
    rw [List.filter_map,
      List.filter_congr (q := fun e => likeContains e.event_name term) (by intro a _; rfl),
      sortDescBy_map (by intro a; rfl), List.map_map]
    rfl

/-- Witness for claim C8 amended at a concrete term, store, row and
re-dating function. -/
theorem search_events_name_filter_only_witness :
    ((1, "Expo") ∈ search_events "Expo" dateStoreA ↔
      ∃ e ∈ dateStoreA.events, e.id = 1 ∧ e.event_name = "Expo" ∧
        likeContains e.event_name "Expo" = true) ∧
    search_events "Expo"
        { dateStoreA with events := dateStoreA.events.map fun e =>
            { e with start_date := (none : Option String),
                     end_date := (none : Option String) } } =
      search_events "Expo" dateStoreA :=
  search_events_name_filter_only "Expo" dateStoreA 1 "Expo"
    (fun _ => ((none : Option String), (none : Option String)))

theorem applyOp_adjustQuantity (i : Nat) (d : Int) (e : Option Nat) (now : String)
    (s : Store) :
    applyOp (.adjustQuantity i d e) now s =
      match spend_collateral i d e now s with
      | .ok (_, t) => t
      | .error _ => s := rfl

/-- Claim C5: `spend_collateral` succeeds exactly when an item with the id
exists; when it is absent the call is the Item-not-found error, raised
before any write, and the operation leaves the store unchanged — no
transaction row is appended and no quantity or last_modified changes. -/
theorem adjust_fails_iff_absent_and_error_is_atomic (i : Nat) (d : Int)
    (e : Option Nat) (now : String) (s : Store) :
    ((∃ r, spend_collateral i d e now s = .ok r) ↔ ∃ c ∈ s.collaterals, c.id = i) ∧
    ((∀ c ∈ s.collaterals, c.id ≠ i) →
      spend_collateral i d e now s = .error "Item not found" ∧
      applyOp (.adjustQuantity i d e) now s = s) := by
  cases hf : s.collaterals.find? (fun c => c.id == i) with
  | none =>
      have hn := List.find?_eq_none.1 hf
      have herr : spend_collateral i d e now s = .error "Item not found" := by
        unfold spend_collateral
        rw [hf]
      constructor
      · rw [herr]
        constructor
        · rintro ⟨r, hr⟩
          cases hr
        · rintro ⟨c, hc, rfl⟩
          exact absurd (by simp) (hn c hc)
      · intro _
        refine ⟨herr, ?_⟩
        rw [applyOp_adjustQuantity, herr]
  | some c =>
      have hcm : c ∈ s.collaterals := List.mem_of_find?_eq_some hf
      have hci : c.id = i := by simpa using List.find?_some hf
      have hok : spend_collateral i d e now s = .ok (max (pyOr0 c.quantity + d) 0,
          { s with
              collaterals := s.collaterals.map fun r =>
                if r.id == i then
                  { r with quantity := max (pyOr0 c.quantity + d) 0, last_modified := now }
                else r,
              transactions := s.transactions ++ [⟨s.nextTransactionId, i, e, d, now⟩],
              nextTransactionId := s.nextTransactionId + 1 }) := by
        unfold spend_collateral
        rw [hf]
      constructor
      · rw [hok]
        constructor
        · intro _
          exact ⟨c, hcm, hci⟩
        · intro _
          exact ⟨_, rfl⟩
      · intro habs
        exact absurd hci (habs c hcm)

/-- Witness for claim C5 at the absent id 99 of `demoStore`. -/
theorem adjust_fails_iff_absent_witness :
    ((∃ r, spend_collateral 99 (-1) none "t9" demoStore = .ok r) ↔
      ∃ c ∈ demoStore.collaterals, c.id = 99) ∧
    ((∀ c ∈ demoStore.collaterals, c.id ≠ 99) →
      spend_collateral 99 (-1) none "t9" demoStore = .error "Item not found" ∧
      applyOp (.adjustQuantity 99 (-1) none) "t9" demoStore = demoStore) :=
  adjust_fails_iff_absent_and_error_is_atomic 99 (-1) none "t9" demoStore

/-- Claim C9: the transactions table is append-only and only the
quantity-adjustment operation writes it: every call either leaves the list
untouched or appends a single row (and only adjustQuantity does the
latter); updateItem never writes a transaction; deleteItem removes only
the item's row, leaving both events and transactions intact. -/
theorem transactions_append_only (op : Op) (now : String) (s : Store) :
    (∃ rest, (applyOp op now s).transactions = s.transactions ++ rest ∧
      (rest = [] ∨ ∃ t, rest = [t]) ∧
      ((∃ i d e, op = .adjustQuantity i d e) ∨ rest = [])) ∧
    (∀ i n q e, op = .updateItem i n q e →
      (applyOp op now s).transactions = s.transactions) ∧
    (∀ i, op = .deleteItem i →
      (applyOp op now s).transactions = s.transactions ∧
      (applyOp op now s).events = s.events ∧
      (applyOp op now s).collaterals = s.collaterals.filter fun c => !(c.id == i)) := by
  refine ⟨?_, ?_, ?_⟩
  · cases op with
    | createEvent n sd ed loc =>
        exact ⟨[], by rw [List.append_nil]; rfl, Or.inl rfl, Or.inr rfl⟩
    | updateEvent i n sd ed loc =>
        exact ⟨[], by rw [List.append_nil]; rfl, Or.inl rfl, Or.inr rfl⟩
    | deleteEvent i =>
        exact ⟨[], by rw [List.append_nil]; rfl, Or.inl rfl, Or.inr rfl⟩
    | createItem n q e =>
        exact ⟨[], by rw [List.append_nil]; rfl, Or.inl rfl, Or.inr rfl⟩
    | updateItem i n q e =>
        exact ⟨[], by rw [List.append_nil]; rfl, Or.inl rfl, Or.inr rfl⟩
    | deleteItem i =>
        exact ⟨[], by rw [List.append_nil]; rfl, Or.inl rfl, Or.inr rfl⟩
    | adjustQuantity i d e =>
        cases hf : s.collaterals.find? (fun c => c.id == i) with
        | none =>
            have herr2 : spend_collateral i d e now s = .error "Item not found" := by
              unfold spend_collateral
              rw [hf]
            have h1 : applyOp (.adjustQuantity i d e) now s = s := by
              rw [applyOp_adjustQuantity, herr2]
            exact ⟨[], by rw [h1, List.append_nil], Or.inl rfl, Or.inl ⟨i, d, e, rfl⟩⟩
        | some c =>
            have hok : spend_collateral i d e now s = .ok (max (pyOr0 c.quantity + d) 0,
                { s with
                    collaterals := s.collaterals.map fun r =>
                      if r.id == i then
                        { r with quantity := max (pyOr0 c.quantity + d) 0,
                                 last_modified := now }
                      else r,
                    transactions := s.transactions ++ [⟨s.nextTransactionId, i, e, d, now⟩],
                    nextTransactionId := s.nextTransactionId + 1 }) := by
              unfold spend_collateral
              rw [hf]
            have h1 : (applyOp (.adjustQuantity i d e) now s).transactions =
                s.transactions ++ [⟨s.nextTransactionId, i, e, d, now⟩] := by
              rw [applyOp_adjustQuantity, hok]
            exact ⟨[⟨s.nextTransactionId, i, e, d, now⟩], h1,
              Or.inr ⟨_, rfl⟩, Or.inl ⟨i, d, e, rfl⟩⟩
  · intro i n q e heq
    subst heq
    rfl
  · intro i heq
    subst heq
    exact ⟨rfl, rfl, rfl⟩

/-- Witness for claim C9 at a concrete non-adjustment operation. -/
theorem transactions_append_only_witness :
    (∃ rest, (applyOp (.updateItem 1 "x" 7 none) "t9" demoStore).transactions =
        demoStore.transactions ++ rest ∧
      (rest = [] ∨ ∃ t, rest = [t]) ∧
      ((∃ i d e, (Op.updateItem 1 "x" 7 none) = .adjustQuantity i d e) ∨ rest = [])) ∧
    (∀ i n q e, (Op.updateItem 1 "x" 7 none) = .updateItem i n q e →
      (applyOp (.updateItem 1 "x" 7 none) "t9" demoStore).transactions =
        demoStore.transactions) ∧
    (∀ i, (Op.updateItem 1 "x" 7 none) = .deleteItem i →
      (applyOp (.updateItem 1 "x" 7 none) "t9" demoStore).transactions =
          demoStore.transactions ∧
      (applyOp (.updateItem 1 "x" 7 none) "t9" demoStore).events = demoStore.events ∧
      (applyOp (.updateItem 1 "x" 7 none) "t9" demoStore).collaterals =
        demoStore.collaterals.filter fun c => !(c.id == i)) :=
  transactions_append_only (.updateItem 1 "x" 7 none) "t9" demoStore

/-- Claim C1: adjusting an existing item with stored quantity q by delta d
returns max(q+d,0), stores that clamped value (and the new timestamp) on
the item, and appends one transaction row recording the requested delta d
— not the clamped effective change — which `get_transactions` then returns
as its most recent (first) entry. -/
theorem adjust_clamps_and_records_requested_delta (s : Store) (i : Nat) (d : Int)
    (e : Option Nat) (now : String) (c : CollateralRow) (hwf : WF s)
    (hfind : s.collaterals.find? (fun r => r.id == i) = some c) :
    ∃ s2, spend_collateral i d e now s = .ok (max (c.quantity + d) 0, s2) ∧
      s2.collaterals.find? (fun r => r.id == i) =
        some { c with quantity := max (c.quantity + d) 0, last_modified := now } ∧
      s2.transactions = s.transactions ++ [⟨s.nextTransactionId, i, e, d, now⟩] ∧
      (get_transactions i s2).head? =
        some (s.nextTransactionId, d, now, eventNameFor s.events e) := by
  obtain ⟨hev, hcol, htx, htxitem, _, _, _⟩ := hwf
  have hb : (c.id == i) = true :=
    List.find?_some (p := fun r : CollateralRow => r.id == i) hfind
  have hspend : spend_collateral i d e now s = .ok (max (c.quantity + d) 0,
      { s with
          collaterals := s.collaterals.map fun r =>
            if r.id == i then
              { r with quantity := max (c.quantity + d) 0, last_modified := now }
            else r,
          transactions := s.transactions ++ [⟨s.nextTransactionId, i, e, d, now⟩],
          nextTransactionId := s.nextTransactionId + 1 }) := by
    unfold spend_collateral
    rw [hfind]
    simp only [pyOr0_eq]
  refine ⟨_, hspend, ?_, rfl, ?_⟩
  · show (s.collaterals.map fun r =>
        if r.id == i then
          { r with quantity := max (c.quantity + d) 0, last_modified := now }
        else r).find? (fun r => r.id == i) = _
    rw [find?_map_keyed (by
        intro a
        by_cases h : (a.id == i) = true <;> simp [h]), hfind]
    show some (if c.id == i then
        { c with quantity := max (c.quantity + d) 0, last_modified := now } else c) = _
    rw [if_pos hb]
  · show ((sortDescBy (fun t : TransactionRow => t.id)
        ((s.transactions ++ [(⟨s.nextTransactionId, i, e, d, now⟩ : TransactionRow)]).filter
          fun t : TransactionRow => t.item_id == i)).map
        fun t : TransactionRow =>
          (t.id, t.delta, t.timestamp, eventNameFor s.events t.event_id)).head? =
      some (s.nextTransactionId, d, now, eventNameFor s.events e)
    rw [List.filter_append]
    have hone : (([(⟨s.nextTransactionId, i, e, d, now⟩ : TransactionRow)]).filter
        fun t : TransactionRow => t.item_id == i) =
        [(⟨s.nextTransactionId, i, e, d, now⟩ : TransactionRow)] := by
      simp
    rw [hone, sortDescBy_append_gt (by
      intro y hy
      exact htx y (List.mem_of_mem_filter hy))]
    rfl

/-- Witness for claim C1: spending 20 from the 5 chairs of `demoStore`
returns the clamped 0 while the logged delta stays -20. -/
theorem adjust_clamps_and_records_requested_delta_witness :
    WF demoStore ∧
    demoStore.collaterals.find? (fun r => r.id == 2) = some chairRow ∧
    (∃ s2, spend_collateral 2 (-20) none "t9" demoStore =
        .ok (max (chairRow.quantity + (-20)) 0, s2) ∧
      s2.collaterals.find? (fun r => r.id == 2) =
        some { chairRow with quantity := max (chairRow.quantity + (-20)) 0,
                             last_modified := "t9" } ∧
      s2.transactions = demoStore.transactions ++
        [⟨demoStore.nextTransactionId, 2, none, -20, "t9"⟩] ∧
      (get_transactions 2 s2).head? =
        some (demoStore.nextTransactionId, -20, "t9", eventNameFor demoStore.events none)) :=
  ⟨by decide, by decide,
   adjust_clamps_and_records_requested_delta demoStore 2 (-20) none "t9" chairRow
     (by decide) (by decide)⟩

/-- Declarative description of the row `lastSpend` returns: the
highest-id transaction of the item with a negative delta. -/
def MostRecentSpend (txs : List TransactionRow) (cid : Nat) (t : TransactionRow) : Prop :=
  t ∈ txs ∧ t.item_id = cid ∧ t.delta < 0 ∧
    ∀ u ∈ txs, u.item_id = cid → u.delta < 0 → u.id ≤ t.id

theorem lastSpend_spec (txs : List TransactionRow) (cid : Nat) :
    (∀ t, lastSpend txs cid = some t → MostRecentSpend txs cid t) ∧
    (lastSpend txs cid = none → ∀ u ∈ txs, ¬(u.item_id = cid ∧ u.delta < 0)) := by
  constructor
  · intro t ht
    unfold lastSpend at ht
    cases hs : sortDescBy (fun t => t.id)
        (txs.filter fun t => t.item_id == cid && decide (t.delta < 0)) with
    | nil => rw [hs] at ht; cases ht
    | cons a rest =>
        rw [hs] at ht
        have hat : a = t := Option.some.inj ht
        subst hat
        have ha : a ∈ txs.filter (fun t => t.item_id == cid && decide (t.delta < 0)) := by
          rw [← mem_sortDescBy (f := fun t : TransactionRow => t.id), hs]
          exact List.mem_cons_self a rest
        have hfilt := List.mem_filter.1 ha
        have hprops : a.item_id = cid ∧ a.delta < 0 := by simpa using hfilt.2
        refine ⟨hfilt.1, hprops.1, hprops.2, ?_⟩
        intro u hu hui hud
        have hu2 : u ∈ txs.filter (fun t => t.item_id == cid && decide (t.delta < 0)) :=
          List.mem_filter.2 ⟨hu, by simp [hui, hud]⟩
        have hu3 := (mem_sortDescBy (f := fun t : TransactionRow => t.id)).2 hu2
        rw [hs] at hu3
        rcases List.mem_cons.1 hu3 with rfl | hu4
        · exact le_refl _
        · have hsort := sortedDescKey_sortDescBy (fun t : TransactionRow => t.id)
            (txs.filter fun t => t.item_id == cid && decide (t.delta < 0))
          rw [hs] at hsort
          exact (List.pairwise_cons.1 hsort).1 u hu4
  · intro hn u hu hcon
    unfold lastSpend at hn
    cases hs : sortDescBy (fun t => t.id)
        (txs.filter fun t => t.item_id == cid && decide (t.delta < 0)) with
    | cons a rest => rw [hs] at hn; cases hn
    | nil =>
        have hu2 : u ∈ txs.filter (fun t => t.item_id == cid && decide (t.delta < 0)) :=
          List.mem_filter.2 ⟨hu, by simp [hcon.1, hcon.2]⟩
        have hu3 := (mem_sortDescBy (f := fun t : TransactionRow => t.id)).2 hu2
        rw [hs] at hu3
        cases hu3

/-- Claim C6: `get_item_summary` has one row per item (its first components
are a permutation of the item ids), is ordered by item id strictly
descending, and each row carries the item's fields together with the
event id and timestamp of the item's most recent negative-delta
transaction, or none and the item's own last_modified when no spend
transaction exists. -/
theorem item_summary_rows_spec (s : Store) (hwf : WF s) :
    List.Perm ((get_item_summary s).map fun r => r.1) (s.collaterals.map fun c => c.id) ∧
    ((get_item_summary s).map fun r => r.1).Pairwise (fun a b => b < a) ∧
    (∀ c ∈ s.collaterals,
      (∃ t, MostRecentSpend s.transactions c.id t ∧
        (c.id, c.item_name, c.quantity, t.event_id, t.timestamp) ∈ get_item_summary s) ∨
      ((∀ u ∈ s.transactions, ¬(u.item_id = c.id ∧ u.delta < 0)) ∧
        (c.id, c.item_name, c.quantity, none, c.last_modified) ∈ get_item_summary s)) := by
  obtain ⟨hev, hcol, htx, htxitem, hpe, hpc, hpt⟩ := hwf
  have hrow1 : ∀ c, (summaryRow s.transactions c).1 = c.id := by
    intro c
    unfold summaryRow
    cases lastSpend s.transactions c.id <;> rfl
  have hids : (get_item_summary s).map (fun r => r.1) =
      (sortDescBy (fun c => c.id) s.collaterals).map (fun c => c.id) := by
    unfold get_item_summary
    rw [List.map_map]
    exact List.map_congr_left fun c _ => hrow1 c
  refine ⟨?_, ?_, ?_⟩
  · rw [hids]
    exact (perm_sortDescBy _ _).map _
  · rw [hids, List.pairwise_map]
    have h1 : (sortDescBy (fun c : CollateralRow => c.id) s.collaterals).Pairwise
        (fun a b => b.id ≤ a.id) := sortedDescKey_sortDescBy _ _
    have h2 : (sortDescBy (fun c : CollateralRow => c.id) s.collaterals).Pairwise
        (fun a b => a.id ≠ b.id) :=
      (List.Perm.pairwise_iff (by intro a b h; exact h.symm) (perm_sortDescBy _ _)).2 hpc
    refine List.Pairwise.imp ?_ (List.pairwise_and_iff.2 ⟨h1, h2⟩)
    rintro a b ⟨hle, hne⟩
    exact lt_of_le_of_ne hle (Ne.symm hne)
  · intro c hc
    have hcs : c ∈ sortDescBy (fun c : CollateralRow => c.id) s.collaterals :=
      mem_sortDescBy.2 hc
    have hmem := List.mem_map_of_mem (summaryRow s.transactions) hcs
    cases hls : lastSpend s.transactions c.id with
    | some t =>
        left
        refine ⟨t, (lastSpend_spec s.transactions c.id).1 t hls, ?_⟩
        have hr : summaryRow s.transactions c =
            (c.id, c.item_name, c.quantity, t.event_id, t.timestamp) := by
          unfold summaryRow
          rw [hls]
        rw [← hr]
        exact hmem
    | none =>
        right
        refine ⟨(lastSpend_spec s.transactions c.id).2 hls, ?_⟩
        have hr : summaryRow s.transactions c =
            (c.id, c.item_name, c.quantity, none, c.last_modified) := by
          unfold summaryRow
          rw [hls]
        rw [← hr]
        exact hmem

/-- Witness for claim C6 on `demoStore`. -/
theorem item_summary_rows_spec_witness :
    WF demoStore ∧
    List.Perm ((get_item_summary demoStore).map fun r => r.1)
      (demoStore.collaterals.map fun c => c.id) ∧
    ((get_item_summary demoStore).map fun r => r.1).Pairwise (fun a b => b < a) ∧
    (∀ c ∈ demoStore.collaterals,
      (∃ t, MostRecentSpend demoStore.transactions c.id t ∧
        (c.id, c.item_name, c.quantity, t.event_id, t.timestamp) ∈
          get_item_summary demoStore) ∨
      ((∀ u ∈ demoStore.transactions, ¬(u.item_id = c.id ∧ u.delta < 0)) ∧
        (c.id, c.item_name, c.quantity, none, c.last_modified) ∈
          get_item_summary demoStore)) :=
  ⟨by decide, item_summary_rows_spec demoStore (by decide)⟩

end Inventory
